import Mathlib

/-!
Verification of the gonopbx administration layer.

The file shallowly embeds, in Lean 4, the parts of the repository needed to
settle the frozen claims: the frontend call-forward interface
(ExtensionDetailPage), the frontend API service, the password-change handler,
the Directus blog client, and the Asterisk control/configuration core
(Config Renderer, Config Publisher, Protocol Client, State Aggregator).
The core's implementation files are not in the source tree (only its callers
and README are), so those components are modelled from the specification, as
marked in their doc comments.
-/

/-! ## Generic association-list maps (keys to values, in insertion order) -/

namespace KV

/-- Look up the value stored for key `k`. -/
def lookup {β : Type} (k : String) : List (String × β) → Option β
  | [] => none
  | (k0, v) :: rest => if k0 = k then some v else lookup k rest

/-- Update the entry for key `k` in place with `f`, or append `(k, f dflt)`
when the key is absent.  The list structure (order of entries) is preserved. -/
def upsert {β : Type} (k : String) (f : β → β) (dflt : β) :
    List (String × β) → List (String × β)
  | [] => [(k, f dflt)]
  | (k0, v) :: rest =>
      if k0 = k then (k0, f v) :: rest else (k0, v) :: upsert k f dflt rest

/-- The keys of an association list. -/
def keys {β : Type} (m : List (String × β)) : List String := m.map Prod.fst

end KV

/-! ## ExtensionDetailPage: call-forward rules (src/unnamed/part_003) -/

namespace ExtensionDetail

/-- A call-forward rule as held in the page's `forwards` state
(interface `CallForwardRule` of ExtensionDetailPage). -/
structure CallForwardRule where
  id : Nat
  extension : String
  forward_type : String
  destination : String
  ring_time : Nat
  enabled : Bool
deriving DecidableEq, Repr

/-- The keys of `FORWARD_TYPE_LABELS`, in declaration order. -/
def forwardTypeKeys : List String := ["unconditional", "busy", "no_answer"]

/-- `availableForwardTypes`: forward types not already configured for the
extension — `Object.keys(FORWARD_TYPE_LABELS).filter(type => !forwards.some(f => f.forward_type === type))`. -/
def availableForwardTypes (forwards : List CallForwardRule) : List String :=
  forwardTypeKeys.filter (fun type => ! forwards.any (fun f => f.forward_type == type))

/-- `handleAddForward`: `api.createCallForward` appends a new rule with the
chosen type, destination and ring time, `enabled: true`, for this extension. -/
def handleAddForward (forwards : List CallForwardRule) (newId : Nat)
    (ext ftype dest : String) (ringTime : Nat) : List CallForwardRule :=
  forwards ++ [{ id := newId, extension := ext, forward_type := ftype,
                 destination := dest, ring_time := ringTime, enabled := true }]

/-- At most one active (enabled) rule per forward type in the page's rule list
(all rules of the page belong to one extension). -/
def atMostOneActive (forwards : List CallForwardRule) : Prop :=
  ∀ t : String,
    (forwards.filter (fun f => f.forward_type == t && f.enabled)).length ≤ 1

end ExtensionDetail

/-! ## ApiService.request (src/frontend/src/services/api.ts) -/

namespace ApiSvc

/-- The parts of a `fetch` response that `request` inspects: the status code,
the status text, and the JSON body (`none` when `response.json()` throws).
The body is modelled as an optional error `detail` plus the raw payload. -/
structure HttpResponse where
  status : Nat
  statusText : String
  jsonDetail : Option String
  jsonRaw : Option String
deriving DecidableEq, Repr

/-- `response.ok` of the Fetch API: status in the inclusive range 200–299. -/
def respOk (r : HttpResponse) : Bool := 200 ≤ r.status && r.status < 300

/-- The browser-local storage slice `request` touches: the stored token. -/
structure Storage where
  token : Option String
deriving DecidableEq, Repr

/-- Outcome of `request`: a resolved JSON value or a rejection message. -/
inductive Outcome where
  | success (body : String)
  | failure (message : String)
deriving DecidableEq, Repr

/-- `ApiService.request`, as a function of the stored token and the HTTP
response: on status 401 it removes the token, reloads the page and throws
"Sitzung abgelaufen"; on a non-ok status it throws the body's `detail` or a
generic message; otherwise it resolves with the parsed body.  The result is
(new storage, page reloaded?, outcome); the outer catch only logs and
rethrows, so it does not change the outcome. -/
def request (storage : Storage) (response : HttpResponse) :
    Storage × Bool × Outcome :=
  if response.status == 401 then
    ({ token := none }, true, Outcome.failure "Sitzung abgelaufen")
  else if ! respOk response then
    (storage, false, Outcome.failure
      ((response.jsonDetail).getD
        ("API Error: " ++ toString response.status ++ " " ++ response.statusText)))
  else
    match response.jsonRaw with
    | some b => (storage, false, Outcome.success b)
    | none => (storage, false, Outcome.failure "Unexpected end of JSON input")

end ApiSvc

/-! ## handleChangePassword (src/unnamed/part_001, App shell) -/

namespace AppShell

/-- The password-modal component state touched by `handleChangePassword`. -/
structure PwState where
  currentPw : String
  newPw : String
  newPwRepeat : String
  pwError : String
  pwSuccess : String
deriving DecidableEq, Repr

/-- Result of the awaited `api.changeMyPassword` call: resolved, or rejected
with an optional error message (the handler falls back to a generic one). -/
inductive ApiResult where
  | ok
  | err (message : Option String)
deriving DecidableEq, Repr

/-- `handleChangePassword` as a state transition.  It clears both banners,
validates the new password (at least 6 characters, repetition matches) and
only then issues the API request; the second component records whether
`api.changeMyPassword` was called. -/
def handleChangePassword (s : PwState) (apiResult : ApiResult) : PwState × Bool :=
  let s0 : PwState := { s with pwError := "", pwSuccess := "" }
  if s0.newPw.length < 6 then
    ({ s0 with pwError := "Das neue Passwort muss mindestens 6 Zeichen lang sein" }, false)
  else if s0.newPw ≠ s0.newPwRepeat then
    ({ s0 with pwError := "Die Passwörter stimmen nicht überein" }, false)
  else
    match apiResult with
    | ApiResult.ok =>
        ({ s0 with pwSuccess := "Passwort erfolgreich geändert",
                   currentPw := "", newPw := "", newPwRepeat := "" }, true)
    | ApiResult.err m =>
        ({ s0 with pwError := m.getD "Passwort konnte nicht geändert werden" }, true)

end AppShell

/-! ## Directus blog client (src/website-astro/src/lib/directus.ts) -/

namespace Directus

/-- A post as returned by the Directus items endpoint (fields the code reads). -/
structure DirectusPost where
  id : Nat
  title : String
  slug : String
  published_at : Option String
deriving DecidableEq, Repr

/-- The JavaScript date runtime used by `formatDate`: `parse` stands for
`new Date(s).getTime()` (`none` when the result is NaN) and `format` for
`toLocaleDateString` with the de-DE day/month/year options. -/
structure DateEnv where
  parse : String → Option Int
  format : Int → String

/-- `formatDate`: empty string on a falsy (`null`/`undefined`/empty) input or
an unparseable date, otherwise the locale-formatted day. -/
def formatDate (env : DateEnv) (dateStr : Option String) : String :=
  match dateStr with
  | none => ""
  | some s =>
      if s = "" then ""
      else
        match env.parse s with
        | none => ""
        | some t => env.format t

/-- What the surrounding world did to the `fetch` of `fetchPostBySlug`:
the call threw, or returned a response with an `ok` flag and the parsed
`data.data` array of published posts matching the slug filter (a `json()`
failure is folded into `throws`, since the surrounding try/catch handles it
the same way). -/
inductive FetchOutcome where
  | throws
  | response (ok : Bool) (posts : List DirectusPost)
deriving DecidableEq, Repr

/-- `fetchPostBySlug`: `null` when `DIRECTUS_URL` is unset (or empty, as the
code tests falsiness), when the fetch throws, when the response is not ok, or
when no post matches; otherwise the first matching post together with its
`formatted_date` field. -/
def fetchPostBySlug (env : DateEnv) (directusUrl : Option String)
    (outcome : FetchOutcome) : Option (DirectusPost × String) :=
  match directusUrl with
  | none => none
  | some u =>
      if u = "" then none
      else
        match outcome with
        | FetchOutcome.throws => none
        | FetchOutcome.response ok posts =>
            if ! ok then none
            else
              match posts with
              | [] => none
              | post :: _ => some (post, formatDate env post.published_at)

end Directus

/-! ## Config Renderer (spec §4.2, §3; implementation not in the source tree) -/

namespace Renderer

/-- Modelled from the spec: the persistent `Endpoint` entity of the data model
(identifier, credential secret, display caller-ID, routing context, enabled
flag); the renderer's implementation file is absent from the tree. -/
structure Endpoint where
  ext : String
  secret : String
  callerId : String
  context : String
  enabled : Bool
deriving DecidableEq, Repr

/-- Modelled from the spec: a trunk's authentication mode. -/
inductive AuthMode where
  | registration
  | fixedIp
deriving DecidableEq, Repr

/-- Modelled from the spec: the persistent `Trunk` entity. -/
structure Trunk where
  name : String
  provider : String
  authMode : AuthMode
  username : String
  password : String
  numberBlock : Option String
  enabled : Bool
deriving DecidableEq, Repr

/-- Modelled from the spec: the persistent `InboundRoute` entity (DID + trunk
mapped to a destination), with the enabled flag the frontend interface shows. -/
structure InboundRoute where
  did : String
  trunkName : String
  destination : String
  enabled : Bool
deriving DecidableEq, Repr

/-- Modelled from the spec: the persistent `VoicemailBox` entity. -/
structure VoicemailBox where
  ext : String
  pin : String
  email : Option String
  enabled : Bool
deriving DecidableEq, Repr

/-- Modelled from the spec: a rendered config fragment — a named, self-contained
block of text targeting one section of one file of the config directory. -/
structure Fragment where
  file : String
  sectionName : String
  text : String
deriving DecidableEq, Repr

/-- Modelled from the spec: the relational snapshot the renderer reads. -/
structure Snapshot where
  endpoints : List Endpoint
  trunks : List Trunk
  routes : List InboundRoute
  mailboxes : List VoicemailBox
deriving DecidableEq, Repr

/-- Target file of the PJSIP endpoint/auth/aor sections. -/
def endpointsFile : String := "pjsip_endpoints.conf"

/-- Target file of the PJSIP registration/identify sections. -/
def trunksFile : String := "pjsip_trunks.conf"

/-- Target file of the dialplan inbound-route extensions. -/
def dialplanFile : String := "extensions_inbound.conf"

/-- Target file of the voicemail mailbox definitions. -/
def voicemailFile : String := "voicemail_boxes.conf"

/-- Modelled from the spec: the endpoint/auth/aor section of one extension,
with the secret rendered verbatim into the auth part. -/
def renderEndpoint (e : Endpoint) : Fragment :=
  { file := endpointsFile
    sectionName := e.ext
    text := "[" ++ e.ext ++ "](endpoint-template)\ncallerid=" ++ e.callerId ++
      " <" ++ e.ext ++ ">\ncontext=" ++ e.context ++ "\nauth=" ++ e.ext ++
      "-auth\npassword=" ++ e.secret ++ "\naor=" ++ e.ext ++ "-aor\n" }

/-- Modelled from the spec: the registration/identify section of one trunk. -/
def renderTrunk (t : Trunk) : Fragment :=
  { file := trunksFile
    sectionName := t.name
    text := "[" ++ t.name ++ "](trunk-template)\nprovider=" ++ t.provider ++
      (match t.authMode with
        | AuthMode.registration =>
            "\nauth_mode=registration\nusername=" ++ t.username ++
            "\npassword=" ++ t.password
        | AuthMode.fixedIp => "\nauth_mode=fixed-ip") ++
      (match t.numberBlock with
        | some nb => "\nnumber_block=" ++ nb
        | none => "") ++ "\n" }

/-- Modelled from the spec: one inbound-route dialplan extension, keyed by the
(trunk, DID) pair the route resolves. -/
def renderRoute (r : InboundRoute) : Fragment :=
  { file := dialplanFile
    sectionName := r.trunkName ++ "/" ++ r.did
    text := "exten => " ++ r.did ++ ",1,Dial(PJSIP/" ++ r.destination ++ ")\n" }

/-- Modelled from the spec: one voicemail mailbox definition. -/
def renderMailbox (b : VoicemailBox) : Fragment :=
  { file := voicemailFile
    sectionName := b.ext
    text := b.ext ++ " => " ++ b.pin ++
      (match b.email with
        | some mail => "," ++ mail
        | none => "") ++ "\n" }

/-- Modelled from the spec: the Config Renderer — a pure function from the
relational snapshot to an ordered list of named fragments, rendering each
enabled entity to exactly one section and each disabled entity to nothing
(absent, not commented out). -/
def render (s : Snapshot) : List Fragment :=
  (s.endpoints.filter (fun e => e.enabled)).map renderEndpoint ++
  (s.trunks.filter (fun t => t.enabled)).map renderTrunk ++
  (s.routes.filter (fun r => r.enabled)).map renderRoute ++
  (s.mailboxes.filter (fun b => b.enabled)).map renderMailbox

/-- How many fragments of `frags` are the section `sec` of file `f`. -/
def countSections (frags : List Fragment) (f sec : String) : Nat :=
  frags.countP (fun fr => fr.file == f && fr.sectionName == sec)

/-- The external world the renderer could, but does not, interact with:
a trace of performed I/O operations. -/
structure World where
  ioTrace : List String
deriving DecidableEq, Repr

/-- Modelled from the spec: running the renderer in a world.  The renderer is
a pure transformation, so the fragments are computed by `render` alone and the
world passes through untouched (no I/O is recorded). -/
def renderRun (s : Snapshot) (w : World) : List Fragment × World :=
  (render s, w)

end Renderer

/-! ## Config Publisher (spec §4.3; implementation not in the source tree) -/

namespace Publisher

/-- The switch's config directory: file name to file contents. -/
def ConfigDir : Type := List (String × String)

/-- Modelled from the spec: writing one fragment — write to a temporary file,
then rename atomically over the final path, which as a whole overwrites the
path's contents (the switch never observes a partial file, so only the
completed overwrite is modelled). -/
def writeFragment (dir : ConfigDir) (name contents : String) : ConfigDir :=
  KV.upsert name (fun _ => contents) contents dir

/-- Write every fragment, in order. -/
def writeAll (dir : ConfigDir) (frags : List (String × String)) : ConfigDir :=
  frags.foldl (fun d fr => writeFragment d fr.1 fr.2) dir

/-- Modelled from the spec: the publisher's result taxonomy. -/
inductive PublishResult where
  | applied
  | reloadError
deriving DecidableEq, Repr

/-- Modelled from the spec: `publish(fragments)` — write all fragments to the
config directory, then issue the reload; a failed reload (`reloadOk = false`)
is reported as `ReloadError` but the already-written files are not rolled
back. -/
def publish (dir : ConfigDir) (frags : List (String × String))
    (reloadOk : Bool) : ConfigDir × PublishResult :=
  let written := writeAll dir frags
  (written, if reloadOk then PublishResult.applied else PublishResult.reloadError)

end Publisher

/-! ## Protocol Client (spec §4.1, §6; implementation not in the source tree) -/

namespace Protocol

/-- Modelled from the spec: a manager-protocol frame — a newline-terminated
key:value block ended by a blank line, kept here as its field map. -/
structure Frame where
  fields : List (String × String)
deriving DecidableEq, Repr

/-- The `ActionID` correlation field of a frame, when present. -/
def frameActionId (f : Frame) : Option String := KV.lookup "ActionID" f.fields

/-- Modelled from the spec: the default `execute` timeout of 5 seconds,
in milliseconds. -/
def defaultTimeoutMs : Nat := 5000

/-- Modelled from the spec: the result of an `execute` call. -/
inductive ExecResult where
  | response (f : Frame)
  | timedOut
deriving DecidableEq, Repr

/-- The first incoming frame whose `ActionID` matches the request id, with its
arrival time (milliseconds after the request was sent). -/
def firstMatch (reqId : String) (incoming : List (Nat × Frame)) :
    Option (Nat × Frame) :=
  incoming.find? (fun tf => frameActionId tf.2 == some reqId)

/-- Modelled from the spec: `execute` blocks until a response frame carrying
the request's client-generated `ActionID` arrives, and returns it; if no such
frame arrives within `timeoutMs`, the call fails with `Timeout`.  `incoming`
is the stream of frames the socket delivers, in arrival order with arrival
times. -/
def execute (reqId : String) (timeoutMs : Nat)
    (incoming : List (Nat × Frame)) : ExecResult :=
  match firstMatch reqId incoming with
  | some (t, f) => if t ≤ timeoutMs then ExecResult.response f else ExecResult.timedOut
  | none => ExecResult.timedOut

/-- Modelled from the spec: the connection-level client state — the set of
outstanding request ids and whether the client is connected. -/
structure ClientState where
  outstanding : List String
  connected : Bool
deriving DecidableEq, Repr

/-- Modelled from the spec: how the read loop classifies one incoming frame. -/
inductive Dispatch where
  | matchedResponse (reqId : String)
  | droppedWithWarning
  | unsolicitedEvent
deriving DecidableEq, Repr

/-- Modelled from the spec: classify and apply one incoming frame — a frame
with an `ActionID` matching an outstanding request is that request's response;
a frame with an `ActionID` matching nothing is dropped with a warning (never
fatal: the state, and in particular connectedness, is untouched); a frame
without `ActionID` is an unsolicited event. -/
def handleFrame (st : ClientState) (f : Frame) : ClientState × Dispatch :=
  match frameActionId f with
  | some id =>
      if st.outstanding.contains id then
        ({ st with outstanding := st.outstanding.erase id },
         Dispatch.matchedResponse id)
      else
        (st, Dispatch.droppedWithWarning)
  | none => (st, Dispatch.unsolicitedEvent)

end Protocol

/-! ## State Aggregator (spec §4.4; implementation not in the source tree) -/

namespace Aggregator

/-- Modelled from the spec: an endpoint's registration phase. -/
inductive EpReg where
  | unknown
  | registered
  | unregistered
deriving DecidableEq, Repr

/-- Modelled from the spec: one entry of `LiveEndpointState`. -/
structure EpState where
  reg : EpReg
  rtt : Option Nat
deriving DecidableEq, Repr

/-- Modelled from the spec: a channel's phase in `LiveChannelState`. -/
inductive ChanPhase where
  | ringing
  | up
  | hungup
deriving DecidableEq, Repr

/-- Modelled from the spec: one entry of `LiveChannelState`. -/
structure ChanState where
  caller : String
  callee : String
  phase : ChanPhase
deriving DecidableEq, Repr

/-- Modelled from the spec: one entry of `TrunkRegistrationState`. -/
inductive TrunkReg where
  | pending
  | registered
  | failed
deriving DecidableEq, Repr

/-- Modelled from the spec: the switch events the aggregator folds, as a tagged
union over the known event names with a catch-all variant. -/
inductive Event where
  | contactReachable (ep : String) (rtt : Option Nat)
  | contactUnreachable (ep : String)
  | contactRemoved (ep : String)
  | dialStart (chan caller callee : String)
  | dialAnswer (chan : String)
  | hangup (chan : String)
  | registrySuccess (trunk : String)
  | registryFailure (trunk : String)
  | unrecognized (name : String) (fields : List (String × String))
deriving DecidableEq, Repr

/-- Modelled from the spec: the derived-state table owned by the aggregator. -/
structure AggState where
  endpoints : List (String × EpState)
  channels : List (String × ChanState)
  trunks : List (String × TrunkReg)
deriving DecidableEq, Repr

/-- The empty derived state (as after a discard). -/
def emptyState : AggState := { endpoints := [], channels := [], trunks := [] }

/-- Modelled from the spec: the endpoint update a reachable-contact event
asserts — registered, with the RTT replaced when the event carries latency
data and kept otherwise. -/
def reachableUpdate (rtt : Option Nat) (st : EpState) : EpState :=
  { reg := EpReg.registered,
    rtt := match rtt with
           | some r => some r
           | none => st.rtt }

/-- Modelled from the spec: the endpoint update a removed/unreachable-contact
event asserts. -/
def unregisteredUpdate (st : EpState) : EpState :=
  { st with reg := EpReg.unregistered }

/-- Modelled from the spec: the channel update an answer event asserts. -/
def answerUpdate (st : ChanState) : ChanState :=
  { st with phase := ChanPhase.up }

/-- Modelled from the spec: the channel update a hangup event asserts (the
entry is retained in the terminal phase for the grace window). -/
def hangupUpdate (st : ChanState) : ChanState :=
  { st with phase := ChanPhase.hungup }

/-- Modelled from the spec: fold one event into the derived state.  Every
transition writes the state the event asserts (so duplicates are no-ops), an
event referencing an unknown id creates the entity lazily, RTT is updated on
any event carrying latency data, and a hangup retains the entry in a terminal
`hungup` phase for the grace window (purging is a separate sweep). -/
def applyEvent (s : AggState) (e : Event) : AggState :=
  match e with
  | Event.contactReachable ep rtt =>
      { s with endpoints := (KV.upsert ep (reachableUpdate rtt)
          { reg := EpReg.unknown, rtt := none } s.endpoints) }
  | Event.contactUnreachable ep =>
      { s with endpoints := (KV.upsert ep unregisteredUpdate
          { reg := EpReg.unknown, rtt := none } s.endpoints) }
  | Event.contactRemoved ep =>
      { s with endpoints := (KV.upsert ep unregisteredUpdate
          { reg := EpReg.unknown, rtt := none } s.endpoints) }
  | Event.dialStart chan caller callee =>
      { s with channels := (KV.upsert chan
          (fun _ => { caller := caller, callee := callee, phase := ChanPhase.ringing })
          { caller := caller, callee := callee, phase := ChanPhase.ringing }
          s.channels) }
  | Event.dialAnswer chan =>
      { s with channels := (KV.upsert chan answerUpdate
          { caller := "", callee := "", phase := ChanPhase.up } s.channels) }
  | Event.hangup chan =>
      { s with channels := (KV.upsert chan hangupUpdate
          { caller := "", callee := "", phase := ChanPhase.hungup } s.channels) }
  | Event.registrySuccess trunk =>
      { s with trunks := (KV.upsert trunk
          (fun _ => TrunkReg.registered) TrunkReg.registered s.trunks) }
  | Event.registryFailure trunk =>
      { s with trunks := (KV.upsert trunk
          (fun _ => TrunkReg.failed) TrunkReg.failed s.trunks) }
  | Event.unrecognized _ _ => s

/-- Fold a whole event sequence. -/
def applyEvents (s : AggState) (es : List Event) : AggState :=
  es.foldl applyEvent s

/-- Modelled from the spec: the live state freshly enumerated from the switch
on resync (current registrations and channels). -/
structure LiveState where
  registrations : List (String × EpState)
  channels : List (String × ChanState)
  trunkRegs : List (String × TrunkReg)
deriving DecidableEq, Repr

/-- A live enumeration is well formed when each table lists every id once. -/
def LiveState.wf (l : LiveState) : Prop :=
  (KV.keys l.registrations).Nodup ∧ (KV.keys l.channels).Nodup ∧
  (KV.keys l.trunkRegs).Nodup

/-- Load one enumerated table entry by entry into an empty table. -/
def loadTable {β : Type} (entries : List (String × β)) : List (String × β) :=
  entries.foldl (fun m kv => KV.upsert kv.1 (fun _ => kv.2) kv.2 m) []

/-- Modelled from the spec: on reconnect the aggregator discards all derived
state and rebuilds it from a full resync enumeration before resuming
incremental updates; the pre-outage state and the events missed during the
outage are not consulted. -/
def reconnectResync (_old : AggState) (_missed : List Event)
    (live : LiveState) : AggState :=
  { endpoints := loadTable live.registrations
    channels := loadTable live.channels
    trunks := loadTable live.trunkRegs }

/-- The live state a derived-state table denotes (for comparison with a fresh
query). -/
def toLive (s : AggState) : LiveState :=
  { registrations := s.endpoints, channels := s.channels, trunkRegs := s.trunks }

/-- The event restates the state already recorded: the entity it references is
present and already carries exactly the state the event asserts. -/
def restatesCurrent (s : AggState) : Event → Prop
  | Event.contactReachable ep rtt =>
      ∃ st, KV.lookup ep s.endpoints = some st ∧ st.reg = EpReg.registered ∧
        (match rtt with
         | some r => st.rtt = some r
         | none => True)
  | Event.contactUnreachable ep =>
      ∃ st, KV.lookup ep s.endpoints = some st ∧ st.reg = EpReg.unregistered
  | Event.contactRemoved ep =>
      ∃ st, KV.lookup ep s.endpoints = some st ∧ st.reg = EpReg.unregistered
  | Event.dialStart chan caller callee =>
      KV.lookup chan s.channels =
        some { caller := caller, callee := callee, phase := ChanPhase.ringing }
  | Event.dialAnswer chan =>
      ∃ st, KV.lookup chan s.channels = some st ∧ st.phase = ChanPhase.up
  | Event.hangup chan =>
      ∃ st, KV.lookup chan s.channels = some st ∧ st.phase = ChanPhase.hungup
  | Event.registrySuccess trunk =>
      KV.lookup trunk s.trunks = some TrunkReg.registered
  | Event.registryFailure trunk =>
      KV.lookup trunk s.trunks = some TrunkReg.failed
  | Event.unrecognized _ _ => True

end Aggregator

/-! ## Helper lemmas -/

namespace KV

theorem upsert_upsert {β : Type} (k : String) (f : β → β) (dflt : β)
    (hf : ∀ v, f (f v) = f v) :
    ∀ m : List (String × β),
      upsert k f dflt (upsert k f dflt m) = upsert k f dflt m
  | [] => by simp [upsert, hf]
  | (k0, v) :: rest => by
      by_cases h : k0 = k
      · simp [upsert, h, hf]
      · simp [upsert, h, upsert_upsert k f dflt hf rest]

theorem upsert_lookup_fixed {β : Type} (k : String) (f : β → β) (dflt : β) :
    ∀ (m : List (String × β)) (v : β),
      lookup k m = some v → f v = v → upsert k f dflt m = m
  | [], v => by intro h _; simp [lookup] at h
  | (k0, v0) :: rest, v => by
      intro h hfv
      by_cases hk : k0 = k
      · subst hk
        simp only [lookup, if_true, eq_self_iff_true, Option.some.injEq] at h
        subst h
        simp [upsert, hfv]
      · simp only [lookup, if_neg hk] at h
        simp [upsert, hk, upsert_lookup_fixed k f dflt rest v h hfv]

theorem upsert_of_not_mem_keys {β : Type} (k : String) (f : β → β) (dflt : β) :
    ∀ m : List (String × β), k ∉ keys m → upsert k f dflt m = m ++ [(k, f dflt)]
  | [] => by intro _; simp [upsert]
  | (k0, v) :: rest => by
      intro h
      simp only [keys, List.map_cons, List.mem_cons] at h
      push_neg at h
      have h1 : k0 ≠ k := fun hk => h.1 hk.symm
      simp [upsert, h1, upsert_of_not_mem_keys k f dflt rest h.2]

theorem keys_append {β : Type} (m₁ m₂ : List (String × β)) :
    keys (m₁ ++ m₂) = keys m₁ ++ keys m₂ := by
  simp [keys]

end KV

/-- Counting elements of a filtered list that share a key with a designated
element: when the keys of `l` are pairwise distinct and `a ∈ l`, the count is
`1` when `a` passes the filter and `0` otherwise. -/
theorem countP_key_unique {α : Type} (key : α → String) (en : α → Bool) :
    ∀ (l : List α) (a : α), a ∈ l → (l.map key).Nodup →
      l.countP (fun b => (key b == key a) && en b) = if en a then 1 else 0
  | [], a => by intro ha _; simp at ha
  | c :: rest, a => by
      intro ha hnd
      simp only [List.map_cons, List.nodup_cons] at hnd
      obtain ⟨hkc, hndr⟩ := hnd
      rw [List.countP_cons]
      rcases List.mem_cons.mp ha with h | h
      · subst h
        have hzero : rest.countP (fun b => (key b == key a) && en b) = 0 := by
          refine List.countP_eq_zero.2 (fun b hb => ?_)
          simp only [Bool.and_eq_true, beq_iff_eq, not_and]
          intro hbk _
          exact hkc (hbk ▸ List.mem_map_of_mem key hb)
        simp only [hzero, beq_self_eq_true, Bool.true_and, Nat.zero_add]
      · have hne : key c ≠ key a :=
          fun hekey => hkc (hekey ▸ List.mem_map_of_mem key h)
        have hc : ((key c == key a) && en c) = false := by
          simp [hne]
        rw [countP_key_unique key en rest a h hndr, hc]
        simp

/-- A mapped list contributes no fragments at all to a count whose predicate
rejects every image. -/
theorem countP_map_zero {α β : Type} (l : List α) (mk : α → β)
    (q : β → Bool) (h : ∀ x, q (mk x) = false) : (l.map mk).countP q = 0 := by
  rw [List.countP_map]
  exact List.countP_eq_zero.2 (fun a _ => by simp [Function.comp, h])

namespace Publisher

theorem lookup_writeFragment_self (n c : String) :
    ∀ dir : ConfigDir, KV.lookup n (writeFragment dir n c) = some c
  | [] => by simp [writeFragment, KV.upsert, KV.lookup]
  | (k0, v0) :: rest => by
      by_cases h : k0 = n
      · simp [writeFragment, KV.upsert, KV.lookup, h]
      · simpa [writeFragment, KV.upsert, KV.lookup, h] using
          lookup_writeFragment_self n c rest

theorem lookup_writeFragment_ne (n c k : String) (hk : n ≠ k) :
    ∀ dir : ConfigDir, KV.lookup k (writeFragment dir n c) = KV.lookup k dir
  | [] => by simp [writeFragment, KV.upsert, KV.lookup, hk]
  | (k0, v0) :: rest => by
      by_cases h : k0 = n
      · subst h
        simp [writeFragment, KV.upsert, KV.lookup, hk]
      · have ih := lookup_writeFragment_ne n c k hk rest
        simp only [writeFragment] at ih
        simp only [writeFragment, KV.upsert, if_neg h, KV.lookup, ih]

theorem lookup_writeAll_of_not_mem (k : String) :
    ∀ (frags : List (String × String)) (dir : ConfigDir),
      k ∉ frags.map Prod.fst →
      KV.lookup k (writeAll dir frags) = KV.lookup k dir
  | [], dir => by intro _; simp [writeAll]
  | (n0, c0) :: rest, dir => by
      intro h
      simp only [List.map_cons, List.mem_cons] at h
      push_neg at h
      have : KV.lookup k (writeAll (writeFragment dir n0 c0) rest) =
          KV.lookup k (writeFragment dir n0 c0) :=
        lookup_writeAll_of_not_mem k rest (writeFragment dir n0 c0) h.2
      calc KV.lookup k (writeAll dir ((n0, c0) :: rest))
      _ = KV.lookup k (writeFragment dir n0 c0) := this
      _ = KV.lookup k dir := lookup_writeFragment_ne n0 c0 k (fun he => h.1 he.symm) dir

theorem lookup_writeAll_of_mem (n c : String) :
    ∀ (frags : List (String × String)) (dir : ConfigDir),
      (frags.map Prod.fst).Nodup → (n, c) ∈ frags →
      KV.lookup n (writeAll dir frags) = some c
  | [], dir => by intro _ h; simp at h
  | (n0, c0) :: rest, dir => by
      intro hnd hmem
      simp only [List.map_cons, List.nodup_cons] at hnd
      rcases List.mem_cons.mp hmem with h | h
      · obtain ⟨h1, h2⟩ := Prod.mk.injEq .. ▸ h
        subst h1; subst h2
        calc KV.lookup n (writeAll dir ((n, c) :: rest))
        _ = KV.lookup n (writeFragment dir n c) :=
              lookup_writeAll_of_not_mem n rest (writeFragment dir n c) hnd.1
        _ = some c := lookup_writeFragment_self n c dir
      · exact lookup_writeAll_of_mem n c rest (writeFragment dir n0 c0) hnd.2 h

end Publisher

namespace Aggregator

theorem loadTable_go {β : Type} :
    ∀ (entries m : List (String × β)),
      (KV.keys entries).Nodup → (∀ k ∈ KV.keys entries, k ∉ KV.keys m) →
      entries.foldl (fun m kv => KV.upsert kv.1 (fun _ => kv.2) kv.2 m) m =
        m ++ entries
  | [], m => by intro _ _; simp
  | (k0, v0) :: rest, m => by
      intro hnd hdisj
      simp only [KV.keys, List.map_cons, List.nodup_cons] at hnd
      simp only [List.foldl_cons]
      rw [KV.upsert_of_not_mem_keys k0 (fun _ => v0) v0 m
            (hdisj k0 (by simp [KV.keys]))]
      rw [loadTable_go rest (m ++ [(k0, v0)]) hnd.2 ?_]
      · simp
      · intro k hk
        rw [KV.keys_append]
        simp only [List.mem_append]
        push_neg
        have hkmem : k ∈ KV.keys ((k0, v0) :: rest) := by
          simp only [KV.keys, List.map_cons, List.mem_cons]
          exact Or.inr hk
        refine ⟨hdisj k hkmem, ?_⟩
        simp only [KV.keys, List.map_cons, List.map_nil, List.mem_singleton]
        intro he
        exact hnd.1 (he ▸ hk)

theorem loadTable_id {β : Type} (entries : List (String × β))
    (hnd : (KV.keys entries).Nodup) : loadTable entries = entries := by
  have := loadTable_go entries [] hnd (by simp [KV.keys])
  simpa [loadTable] using this

end Aggregator

/-! ## Claim theorems -/

/-- Claim C5: at most one active call-forward rule exists per (endpoint, type)
pair, and creation preserves this: the creation interface only offers types
not already configured for the extension, and adding a rule through an
offered type keeps the invariant. -/
theorem claim_C5_forward_type_invariant
    (forwards : List ExtensionDetail.CallForwardRule)
    (t ext dest : String) (newId ringTime : Nat)
    (hinv : ExtensionDetail.atMostOneActive forwards)
    (ht : t ∈ ExtensionDetail.availableForwardTypes forwards) :
    (t ∈ ExtensionDetail.forwardTypeKeys ∧ ∀ f ∈ forwards, f.forward_type ≠ t) ∧
    ExtensionDetail.atMostOneActive
      (ExtensionDetail.handleAddForward forwards newId ext t dest ringTime) := by
  have hmem := List.mem_filter.mp ht
  have hnone : ∀ f ∈ forwards, f.forward_type ≠ t := by
    have h2 := hmem.2
    simp only [Bool.not_eq_true', List.any_eq_false, beq_iff_eq] at h2
    exact h2
  refine ⟨⟨hmem.1, hnone⟩, ?_⟩
  intro t'
  simp only [ExtensionDetail.handleAddForward, List.filter_append,
    List.length_append]
  by_cases hty : t = t'
  · subst hty
    have hz : (forwards.filter fun f => f.forward_type == t && f.enabled) = [] := by
      refine List.filter_eq_nil_iff.2 (fun f hf => ?_)
      simp [hnone f hf]
    rw [hz]
    simp [List.length_filter_le]
  · simpa [hty] using hinv t'

/-- Claim C5 witness: on an extension with one active unconditional rule,
`busy` is offered and adding it keeps at most one active rule per type. -/
theorem claim_C5_witness :
    ExtensionDetail.atMostOneActive
      (ExtensionDetail.handleAddForward
        [{ id := 1, extension := "1001", forward_type := "unconditional",
           destination := "1002", ring_time := 20, enabled := true }]
        2 "1001" "busy" "1003" 20) :=
  (claim_C5_forward_type_invariant
    [{ id := 1, extension := "1001", forward_type := "unconditional",
       destination := "1002", ring_time := 20, enabled := true }]
    "busy" "1001" "1003" 2 20
    (fun t => by simpa using List.length_filter_le _ _)
    (by decide)).2

/-- Claim C8: a 401 response makes `ApiService.request` remove the stored
token and reject with "Sitzung abgelaufen"; it is never parsed into a
successful result. -/
theorem claim_C8_unauthorized (storage : ApiSvc.Storage)
    (response : ApiSvc.HttpResponse) (h : response.status = 401) :
    ApiSvc.request storage response =
      ({ token := none }, true, ApiSvc.Outcome.failure "Sitzung abgelaufen") ∧
    ∀ b, (ApiSvc.request storage response).2.2 ≠ ApiSvc.Outcome.success b := by
  have heq : ApiSvc.request storage response =
      ({ token := none }, true, ApiSvc.Outcome.failure "Sitzung abgelaufen") := by
    simp [ApiSvc.request, h]
  refine ⟨heq, fun b => ?_⟩
  rw [heq]
  simp

/-- Claim C8 witness: a concrete 401 response with a stored token. -/
theorem claim_C8_witness :
    ApiSvc.request { token := some "jwt" }
        { status := 401, statusText := "Unauthorized",
          jsonDetail := none, jsonRaw := some "body" } =
      ({ token := none }, true, ApiSvc.Outcome.failure "Sitzung abgelaufen") :=
  (claim_C8_unauthorized { token := some "jwt" }
    { status := 401, statusText := "Unauthorized",
      jsonDetail := none, jsonRaw := some "body" } rfl).1

/-- Claim C9: `handleChangePassword` calls the API exactly when the new
password has at least 6 characters and matches its repetition; otherwise no
request is sent, an error message is set, and the entered passwords are
unchanged. -/
theorem claim_C9_change_password (s : AppShell.PwState) (r : AppShell.ApiResult) :
    ((AppShell.handleChangePassword s r).2 = true ↔
      6 ≤ s.newPw.length ∧ s.newPw = s.newPwRepeat) ∧
    ((AppShell.handleChangePassword s r).2 = false →
      (AppShell.handleChangePassword s r).1.currentPw = s.currentPw ∧
      (AppShell.handleChangePassword s r).1.newPw = s.newPw ∧
      (AppShell.handleChangePassword s r).1.newPwRepeat = s.newPwRepeat ∧
      (AppShell.handleChangePassword s r).1.pwError ≠ "") := by
  by_cases h1 : s.newPw.length < 6
  · simp only [AppShell.handleChangePassword, if_pos h1]
    constructor
    · constructor
      · intro h; simp at h
      · rintro ⟨h6, -⟩; omega
    · intro _
      exact ⟨by simp, by simp, by simp, by decide⟩
  · by_cases h2 : s.newPw = s.newPwRepeat
    · have hcond : ¬(s.newPw ≠ s.newPwRepeat) := fun hn => hn h2
      constructor
      · cases r <;>
          simp only [AppShell.handleChangePassword, if_neg h1, if_neg hcond] <;>
          exact ⟨fun _ => ⟨by omega, h2⟩, fun _ => by trivial⟩
      · intro hfalse
        exfalso
        cases r <;>
          simp only [AppShell.handleChangePassword, if_neg h1, if_neg hcond] at hfalse <;>
          exact absurd hfalse (by decide)
    · simp only [AppShell.handleChangePassword, if_neg h1, if_pos h2]
      constructor
      · constructor
        · intro h; simp at h
        · rintro ⟨-, heq⟩; exact absurd heq h2
      · intro _
        exact ⟨by simp, by simp, by simp, by decide⟩

/-- Claim C9 witness: a mismatching repetition sends no request, sets the
error banner and leaves the entered passwords unchanged. -/
theorem claim_C9_witness :
    (AppShell.handleChangePassword
        { currentPw := "old", newPw := "secret1", newPwRepeat := "secret2",
          pwError := "", pwSuccess := "" } AppShell.ApiResult.ok).2 = false ∧
    (AppShell.handleChangePassword
        { currentPw := "old", newPw := "secret1", newPwRepeat := "secret2",
          pwError := "", pwSuccess := "" } AppShell.ApiResult.ok).1.newPw =
      "secret1" := by
  have h := claim_C9_change_password
    { currentPw := "old", newPw := "secret1", newPwRepeat := "secret2",
      pwError := "", pwSuccess := "" } AppShell.ApiResult.ok
  have hfalse : (AppShell.handleChangePassword
      { currentPw := "old", newPw := "secret1", newPwRepeat := "secret2",
        pwError := "", pwSuccess := "" } AppShell.ApiResult.ok).2 = false := by
    rcases hb : (AppShell.handleChangePassword
      { currentPw := "old", newPw := "secret1", newPwRepeat := "secret2",
        pwError := "", pwSuccess := "" } AppShell.ApiResult.ok).2 with _ | _
    · rfl
    · exact absurd (h.1.mp hb).2 (by decide)
  exact ⟨hfalse, (h.2 hfalse).2.1⟩

/-- Claim C10: `fetchPostBySlug` returns null when the Directus URL is unset,
the fetch throws, the response is not ok, or no published post matches the
slug; otherwise it returns the first matching post with a `formatted_date`
that is empty exactly when `published_at` is missing or unparseable. -/
theorem claim_C10_fetch_post_by_slug (env : Directus.DateEnv) :
    (∀ outcome, Directus.fetchPostBySlug env none outcome = none) ∧
    (∀ outcome, Directus.fetchPostBySlug env (some "") outcome = none) ∧
    (∀ u, u ≠ "" →
      Directus.fetchPostBySlug env (some u) Directus.FetchOutcome.throws = none) ∧
    (∀ u posts, u ≠ "" →
      Directus.fetchPostBySlug env (some u)
        (Directus.FetchOutcome.response false posts) = none) ∧
    (∀ u, u ≠ "" →
      Directus.fetchPostBySlug env (some u)
        (Directus.FetchOutcome.response true []) = none) ∧
    (∀ u p rest, u ≠ "" →
      Directus.fetchPostBySlug env (some u)
          (Directus.FetchOutcome.response true (p :: rest)) =
        some (p, Directus.formatDate env p.published_at)) ∧
    (Directus.formatDate env none = "") ∧
    (∀ d, env.parse d = none → Directus.formatDate env (some d) = "") ∧
    (∀ d t, d ≠ "" → env.parse d = some t →
      Directus.formatDate env (some d) = env.format t) := by
  refine ⟨fun o => rfl, fun o => by cases o <;> rfl, ?_, ?_, ?_, ?_, rfl, ?_, ?_⟩
  · intro u hu
    simp [Directus.fetchPostBySlug, hu]
  · intro u posts hu
    simp [Directus.fetchPostBySlug, hu]
  · intro u hu
    simp [Directus.fetchPostBySlug, hu]
  · intro u p rest hu
    simp [Directus.fetchPostBySlug, hu]
  · intro d hd
    by_cases h0 : d = "" <;> simp [Directus.formatDate, h0, hd]
  · intro d t hd hp
    simp [Directus.formatDate, hd, hp]

/-- Claim C10 witness: concrete runs of `fetchPostBySlug` and `formatDate`
under a concrete date runtime. -/
theorem claim_C10_witness :
    Directus.fetchPostBySlug
        { parse := fun d => if d = "2026-02-13" then some 1770940800000 else none,
          format := fun _ => "13. Februar 2026" }
        (some "https://cms.example")
        (Directus.FetchOutcome.response true
          [{ id := 7, title := "Release", slug := "release",
             published_at := some "2026-02-13" }]) =
      some ({ id := 7, title := "Release", slug := "release",
              published_at := some "2026-02-13" }, "13. Februar 2026") ∧
    Directus.fetchPostBySlug
        { parse := fun d => if d = "2026-02-13" then some 1770940800000 else none,
          format := fun _ => "13. Februar 2026" }
        (some "https://cms.example") Directus.FetchOutcome.throws = none := by
  have h := claim_C10_fetch_post_by_slug
    { parse := fun d => if d = "2026-02-13" then some 1770940800000 else none,
      format := fun _ => "13. Februar 2026" }
  constructor
  · rw [h.2.2.2.2.2.1 "https://cms.example"
      { id := 7, title := "Release", slug := "release",
        published_at := some "2026-02-13" } [] (by decide)]
    rw [h.2.2.2.2.2.2.2.2 "2026-02-13" 1770940800000 (by decide) (by simp)]
  · exact h.2.2.1 "https://cms.example" (by decide)

/-- Counting the sections a rendered entity kind contributes: with pairwise
distinct keys, an entity in the snapshot yields one section when enabled and
none when disabled. -/
theorem renderer_count_kind {α : Type} (l : List α) (en : α → Bool)
    (key : α → String) (mk : α → Renderer.Fragment) (f : String) (a : α)
    (hfile : ∀ x, (mk x).file = f)
    (hsec : ∀ x, (mk x).sectionName = key x)
    (ha : a ∈ l) (hnd : (l.map key).Nodup) :
    ((l.filter en).map mk).countP
        (fun fr => fr.file == f && fr.sectionName == key a) =
      if en a then 1 else 0 := by
  rw [List.countP_map]
  have h1 : (l.filter en).countP
      ((fun fr => fr.file == f && fr.sectionName == key a) ∘ mk) =
      (l.filter en).countP (fun b => key b == key a) := by
    refine List.countP_congr (fun b _ => ?_)
    simp [Function.comp, hfile b, hsec b]
  rw [h1, List.countP_filter]
  exact countP_key_unique key en l a ha hnd

/-- A kind rendered into a different target file contributes no sections to a
count over another file. -/
theorem renderer_count_other {α : Type} (l : List α) (mk : α → Renderer.Fragment)
    (f sec : String) (hfile : ∀ x, (mk x).file ≠ f) :
    (l.map mk).countP (fun fr => fr.file == f && fr.sectionName == sec) = 0 :=
  countP_map_zero l mk _ (fun x => by simp [hfile x])

/-- Claim C1: in the rendered output of a snapshot with unique entity keys,
every disabled entity has no section at all and every enabled entity has
exactly one, for each entity kind carrying an enabled flag. -/
theorem claim_C1_enabled_entities_sections (s : Renderer.Snapshot)
    (hend : (s.endpoints.map Renderer.Endpoint.ext).Nodup)
    (htr : (s.trunks.map Renderer.Trunk.name).Nodup)
    (hrt : (s.routes.map (fun r => r.trunkName ++ "/" ++ r.did)).Nodup)
    (hmb : (s.mailboxes.map Renderer.VoicemailBox.ext).Nodup) :
    (∀ e ∈ s.endpoints,
      Renderer.countSections (Renderer.render s) Renderer.endpointsFile e.ext =
        if e.enabled then 1 else 0) ∧
    (∀ t ∈ s.trunks,
      Renderer.countSections (Renderer.render s) Renderer.trunksFile t.name =
        if t.enabled then 1 else 0) ∧
    (∀ r ∈ s.routes,
      Renderer.countSections (Renderer.render s) Renderer.dialplanFile
          (r.trunkName ++ "/" ++ r.did) = if r.enabled then 1 else 0) ∧
    (∀ b ∈ s.mailboxes,
      Renderer.countSections (Renderer.render s) Renderer.voicemailFile b.ext =
        if b.enabled then 1 else 0) := by
  refine ⟨?_, ?_, ?_, ?_⟩
  · intro e he
    simp only [Renderer.countSections, Renderer.render, List.countP_append]
    rw [renderer_count_other (s.trunks.filter (fun t => t.enabled))
          Renderer.renderTrunk _ _
          (fun x => by simp only [Renderer.renderTrunk]; decide),
        renderer_count_other (s.routes.filter (fun r => r.enabled))
          Renderer.renderRoute _ _
          (fun x => by simp only [Renderer.renderRoute]; decide),
        renderer_count_other (s.mailboxes.filter (fun b => b.enabled))
          Renderer.renderMailbox _ _
          (fun x => by simp only [Renderer.renderMailbox]; decide)]
    simp only [Nat.add_zero]
    exact renderer_count_kind s.endpoints (fun e => e.enabled)
      Renderer.Endpoint.ext Renderer.renderEndpoint Renderer.endpointsFile e
      (fun x => rfl) (fun x => rfl) he hend
  · intro t ht
    simp only [Renderer.countSections, Renderer.render, List.countP_append]
    rw [renderer_count_other (s.endpoints.filter (fun e => e.enabled))
          Renderer.renderEndpoint _ _
          (fun x => by simp only [Renderer.renderEndpoint]; decide),
        renderer_count_other (s.routes.filter (fun r => r.enabled))
          Renderer.renderRoute _ _
          (fun x => by simp only [Renderer.renderRoute]; decide),
        renderer_count_other (s.mailboxes.filter (fun b => b.enabled))
          Renderer.renderMailbox _ _
          (fun x => by simp only [Renderer.renderMailbox]; decide)]
    simp only [Nat.add_zero, Nat.zero_add]
    exact renderer_count_kind s.trunks (fun t => t.enabled)
      Renderer.Trunk.name Renderer.renderTrunk Renderer.trunksFile t
      (fun x => rfl) (fun x => rfl) ht htr
  · intro r hr
    simp only [Renderer.countSections, Renderer.render, List.countP_append]
    rw [renderer_count_other (s.endpoints.filter (fun e => e.enabled))
          Renderer.renderEndpoint _ _
          (fun x => by simp only [Renderer.renderEndpoint]; decide),
        renderer_count_other (s.trunks.filter (fun t => t.enabled))
          Renderer.renderTrunk _ _
          (fun x => by simp only [Renderer.renderTrunk]; decide),
        renderer_count_other (s.mailboxes.filter (fun b => b.enabled))
          Renderer.renderMailbox _ _
          (fun x => by simp only [Renderer.renderMailbox]; decide)]
    simp only [Nat.add_zero, Nat.zero_add]
    exact renderer_count_kind s.routes (fun r => r.enabled)
      (fun r => r.trunkName ++ "/" ++ r.did) Renderer.renderRoute
      Renderer.dialplanFile r (fun x => rfl) (fun x => rfl) hr hrt
  · intro b hb
    simp only [Renderer.countSections, Renderer.render, List.countP_append]
    rw [renderer_count_other (s.endpoints.filter (fun e => e.enabled))
          Renderer.renderEndpoint _ _
          (fun x => by simp only [Renderer.renderEndpoint]; decide),
        renderer_count_other (s.trunks.filter (fun t => t.enabled))
          Renderer.renderTrunk _ _
          (fun x => by simp only [Renderer.renderTrunk]; decide),
        renderer_count_other (s.routes.filter (fun r => r.enabled))
          Renderer.renderRoute _ _
          (fun x => by simp only [Renderer.renderRoute]; decide)]
    simp only [Nat.add_zero, Nat.zero_add]
    exact renderer_count_kind s.mailboxes (fun b => b.enabled)
      Renderer.VoicemailBox.ext Renderer.renderMailbox Renderer.voicemailFile b
      (fun x => rfl) (fun x => rfl) hb hmb

/-- Claim C1 witness: a snapshot with an enabled endpoint "1002" and a
disabled endpoint "1003" renders exactly one section for the first and none
for the second. -/
theorem claim_C1_witness :
    Renderer.countSections
        (Renderer.render
          { endpoints :=
              [{ ext := "1002", secret := "S3cr3t!", callerId := "Alice",
                 context := "internal", enabled := true },
               { ext := "1003", secret := "pw", callerId := "Bob",
                 context := "internal", enabled := false }],
            trunks := [], routes := [], mailboxes := [] })
        Renderer.endpointsFile "1002" = 1 ∧
    Renderer.countSections
        (Renderer.render
          { endpoints :=
              [{ ext := "1002", secret := "S3cr3t!", callerId := "Alice",
                 context := "internal", enabled := true },
               { ext := "1003", secret := "pw", callerId := "Bob",
                 context := "internal", enabled := false }],
            trunks := [], routes := [], mailboxes := [] })
        Renderer.endpointsFile "1003" = 0 := by
  have h := claim_C1_enabled_entities_sections
    { endpoints :=
        [{ ext := "1002", secret := "S3cr3t!", callerId := "Alice",
           context := "internal", enabled := true },
         { ext := "1003", secret := "pw", callerId := "Bob",
           context := "internal", enabled := false }],
      trunks := [], routes := [], mailboxes := [] }
    (by decide) (by decide) (by decide) (by decide)
  constructor
  · simpa using h.1
      { ext := "1002", secret := "S3cr3t!", callerId := "Alice",
        context := "internal", enabled := true } (by simp)
  · simpa using h.1
      { ext := "1003", secret := "pw", callerId := "Bob",
        context := "internal", enabled := false } (by simp)

/-- Claim C4: the Config Renderer is pure and deterministic — running it twice
on the same snapshot, in any pair of worlds, yields byte-identical fragment
lists, and the world is returned unchanged (no I/O side effects). -/
theorem claim_C4_renderer_deterministic (s : Renderer.Snapshot)
    (w₁ w₂ : Renderer.World) :
    (Renderer.renderRun s w₁).1 = (Renderer.renderRun s w₂).1 ∧
    (Renderer.renderRun s w₁).2 = w₁ :=
  ⟨rfl, rfl⟩

/-- Claim C2: every State Aggregator transition is idempotent — applying the
same event twice equals applying it once — and an event that merely restates
the currently recorded state leaves the derived state unchanged. -/
theorem claim_C2_event_idempotent (s : Aggregator.AggState)
    (e : Aggregator.Event) :
    Aggregator.applyEvent (Aggregator.applyEvent s e) e =
      Aggregator.applyEvent s e ∧
    (Aggregator.restatesCurrent s e → Aggregator.applyEvent s e = s) := by
  constructor
  · cases e with
    | contactReachable ep rtt =>
        simp only [Aggregator.applyEvent]
        exact congrArg (fun x => { s with endpoints := x })
          (KV.upsert_upsert ep (Aggregator.reachableUpdate rtt)
            { reg := Aggregator.EpReg.unknown, rtt := none }
            (fun v => by cases rtt <;> rfl) s.endpoints)
    | contactUnreachable ep =>
        simp only [Aggregator.applyEvent]
        exact congrArg (fun x => { s with endpoints := x })
          (KV.upsert_upsert ep Aggregator.unregisteredUpdate
            { reg := Aggregator.EpReg.unknown, rtt := none }
            (fun v => rfl) s.endpoints)
    | contactRemoved ep =>
        simp only [Aggregator.applyEvent]
        exact congrArg (fun x => { s with endpoints := x })
          (KV.upsert_upsert ep Aggregator.unregisteredUpdate
            { reg := Aggregator.EpReg.unknown, rtt := none }
            (fun v => rfl) s.endpoints)
    | dialStart chan caller callee =>
        simp only [Aggregator.applyEvent]
        exact congrArg (fun x => { s with channels := x })
          (KV.upsert_upsert chan
            (fun _ => { caller := caller, callee := callee,
                        phase := Aggregator.ChanPhase.ringing })
            { caller := caller, callee := callee,
              phase := Aggregator.ChanPhase.ringing }
            (fun v => rfl) s.channels)
    | dialAnswer chan =>
        simp only [Aggregator.applyEvent]
        exact congrArg (fun x => { s with channels := x })
          (KV.upsert_upsert chan Aggregator.answerUpdate
            { caller := "", callee := "", phase := Aggregator.ChanPhase.up }
            (fun v => rfl) s.channels)
    | hangup chan =>
        simp only [Aggregator.applyEvent]
        exact congrArg (fun x => { s with channels := x })
          (KV.upsert_upsert chan Aggregator.hangupUpdate
            { caller := "", callee := "", phase := Aggregator.ChanPhase.hungup }
            (fun v => rfl) s.channels)
    | registrySuccess trunk =>
        simp only [Aggregator.applyEvent]
        exact congrArg (fun x => { s with trunks := x })
          (KV.upsert_upsert trunk (fun _ => Aggregator.TrunkReg.registered)
            Aggregator.TrunkReg.registered (fun v => rfl) s.trunks)
    | registryFailure trunk =>
        simp only [Aggregator.applyEvent]
        exact congrArg (fun x => { s with trunks := x })
          (KV.upsert_upsert trunk (fun _ => Aggregator.TrunkReg.failed)
            Aggregator.TrunkReg.failed (fun v => rfl) s.trunks)
    | unrecognized name fields => rfl
  · intro h
    cases e with
    | contactReachable ep rtt =>
        obtain ⟨st, hlk, hreg, hrtt⟩ := h
        simp only [Aggregator.applyEvent]
        refine congrArg (fun x => { s with endpoints := x })
          (KV.upsert_lookup_fixed ep (Aggregator.reachableUpdate rtt)
            { reg := Aggregator.EpReg.unknown, rtt := none }
            s.endpoints st hlk ?_)
        cases st with
        | mk reg0 rtt0 =>
            cases rtt with
            | some r =>
                simp only at hreg hrtt
                simp [Aggregator.reachableUpdate, hreg, hrtt]
            | none =>
                simp only at hreg
                simp [Aggregator.reachableUpdate, hreg]
    | contactUnreachable ep =>
        obtain ⟨st, hlk, hreg⟩ := h
        simp only [Aggregator.applyEvent]
        refine congrArg (fun x => { s with endpoints := x })
          (KV.upsert_lookup_fixed ep Aggregator.unregisteredUpdate
            { reg := Aggregator.EpReg.unknown, rtt := none }
            s.endpoints st hlk ?_)
        cases st with
        | mk reg0 rtt0 =>
            simp only at hreg
            simp [Aggregator.unregisteredUpdate, hreg]
    | contactRemoved ep =>
        obtain ⟨st, hlk, hreg⟩ := h
        simp only [Aggregator.applyEvent]
        refine congrArg (fun x => { s with endpoints := x })
          (KV.upsert_lookup_fixed ep Aggregator.unregisteredUpdate
            { reg := Aggregator.EpReg.unknown, rtt := none }
            s.endpoints st hlk ?_)
        cases st with
        | mk reg0 rtt0 =>
            simp only at hreg
            simp [Aggregator.unregisteredUpdate, hreg]
    | dialStart chan caller callee =>
        simp only [Aggregator.applyEvent]
        exact congrArg (fun x => { s with channels := x })
          (KV.upsert_lookup_fixed chan
            (fun _ => { caller := caller, callee := callee,
                        phase := Aggregator.ChanPhase.ringing })
            { caller := caller, callee := callee,
              phase := Aggregator.ChanPhase.ringing }
            s.channels _ h rfl)
    | dialAnswer chan =>
        obtain ⟨st, hlk, hph⟩ := h
        simp only [Aggregator.applyEvent]
        refine congrArg (fun x => { s with channels := x })
          (KV.upsert_lookup_fixed chan Aggregator.answerUpdate
            { caller := "", callee := "", phase := Aggregator.ChanPhase.up }
            s.channels st hlk ?_)
        cases st with
        | mk caller0 callee0 phase0 =>
            simp only at hph
            simp [Aggregator.answerUpdate, hph]
    | hangup chan =>
        obtain ⟨st, hlk, hph⟩ := h
        simp only [Aggregator.applyEvent]
        refine congrArg (fun x => { s with channels := x })
          (KV.upsert_lookup_fixed chan Aggregator.hangupUpdate
            { caller := "", callee := "", phase := Aggregator.ChanPhase.hungup }
            s.channels st hlk ?_)
        cases st with
        | mk caller0 callee0 phase0 =>
            simp only at hph
            simp [Aggregator.hangupUpdate, hph]
    | registrySuccess trunk =>
        simp only [Aggregator.applyEvent]
        exact congrArg (fun x => { s with trunks := x })
          (KV.upsert_lookup_fixed trunk (fun _ => Aggregator.TrunkReg.registered)
            Aggregator.TrunkReg.registered s.trunks _ h rfl)
    | registryFailure trunk =>
        simp only [Aggregator.applyEvent]
        exact congrArg (fun x => { s with trunks := x })
          (KV.upsert_lookup_fixed trunk (fun _ => Aggregator.TrunkReg.failed)
            Aggregator.TrunkReg.failed s.trunks _ h rfl)
    | unrecognized name fields => rfl

/-- Claim C2 witness: a duplicate reachable-contact event on an endpoint that
is already registered with the same RTT is a no-op. -/
theorem claim_C2_witness :
    Aggregator.applyEvent
        { endpoints :=
            [("1001", { reg := Aggregator.EpReg.registered, rtt := some 20 })],
          channels := [], trunks := [] }
        (Aggregator.Event.contactReachable "1001" (some 20)) =
      { endpoints :=
          [("1001", { reg := Aggregator.EpReg.registered, rtt := some 20 })],
        channels := [], trunks := [] } :=
  (claim_C2_event_idempotent
    { endpoints :=
        [("1001", { reg := Aggregator.EpReg.registered, rtt := some 20 })],
      channels := [], trunks := [] }
    (Aggregator.Event.contactReachable "1001" (some 20))).2
    ⟨{ reg := Aggregator.EpReg.registered, rtt := some 20 },
      by decide, rfl, rfl⟩

/-- Claim C3: after a disconnect/reconnect, the aggregator's derived state is
rebuilt from the full resync enumeration alone — it exactly equals the live
state freshly queried from the switch, independently of the pre-outage state
and of every event sequence missed during the outage. -/
theorem claim_C3_resync_exact (old : Aggregator.AggState)
    (missed : List Aggregator.Event) (live : Aggregator.LiveState)
    (h : live.wf) :
    Aggregator.toLive (Aggregator.reconnectResync old missed live) = live ∧
    ∀ (old₂ : Aggregator.AggState) (missed₂ : List Aggregator.Event),
      Aggregator.reconnectResync old missed live =
        Aggregator.reconnectResync old₂ missed₂ live := by
  obtain ⟨h1, h2, h3⟩ := h
  refine ⟨?_, fun old₂ missed₂ => rfl⟩
  simp [Aggregator.toLive, Aggregator.reconnectResync,
    Aggregator.loadTable_id _ h1, Aggregator.loadTable_id _ h2,
    Aggregator.loadTable_id _ h3]

/-- Claim C3 witness: a resync after an outage with a missed hangup event
reproduces exactly the switch's freshly enumerated live state, from any
pre-outage state. -/
theorem claim_C3_witness :
    Aggregator.toLive (Aggregator.reconnectResync
        { endpoints := [("1002", { reg := Aggregator.EpReg.registered, rtt := none })],
          channels := [("C-9", { caller := "1002", callee := "1003",
                                 phase := Aggregator.ChanPhase.ringing })],
          trunks := [] }
        [Aggregator.Event.hangup "C-9",
         Aggregator.Event.contactRemoved "1002"]
        { registrations := [("1001", { reg := Aggregator.EpReg.registered, rtt := some 20 })],
          channels := [("C-1", { caller := "1001", callee := "49301234",
                                 phase := Aggregator.ChanPhase.up })],
          trunkRegs := [("Plusnet", Aggregator.TrunkReg.registered)] }) =
      { registrations := [("1001", { reg := Aggregator.EpReg.registered, rtt := some 20 })],
        channels := [("C-1", { caller := "1001", callee := "49301234",
                               phase := Aggregator.ChanPhase.up })],
        trunkRegs := [("Plusnet", Aggregator.TrunkReg.registered)] } :=
  (claim_C3_resync_exact
    { endpoints := [("1002", { reg := Aggregator.EpReg.registered, rtt := none })],
      channels := [("C-9", { caller := "1002", callee := "1003",
                             phase := Aggregator.ChanPhase.ringing })],
      trunks := [] }
    [Aggregator.Event.hangup "C-9",
     Aggregator.Event.contactRemoved "1002"]
    { registrations := [("1001", { reg := Aggregator.EpReg.registered, rtt := some 20 })],
      channels := [("C-1", { caller := "1001", callee := "49301234",
                             phase := Aggregator.ChanPhase.up })],
      trunkRegs := [("Plusnet", Aggregator.TrunkReg.registered)] }
    (by refine ⟨?_, ?_, ?_⟩ <;> decide)).1

/-- Claim C6: `execute` returns the first response frame whose ActionID
matches the request's correlation id when it arrives within the timeout
(5000 ms by default), fails with Timeout when none arrives in time, and a
response frame matching no outstanding request is dropped with a warning,
leaving the client state — in particular its connectedness — untouched. -/
theorem claim_C6_execute_correlation (reqId : String) (timeoutMs : Nat)
    (incoming : List (Nat × Protocol.Frame)) (st : Protocol.ClientState)
    (fr : Protocol.Frame) :
    (∀ t f, Protocol.firstMatch reqId incoming = some (t, f) → t ≤ timeoutMs →
      Protocol.execute reqId timeoutMs incoming = Protocol.ExecResult.response f ∧
      Protocol.frameActionId f = some reqId) ∧
    (∀ t f, Protocol.firstMatch reqId incoming = some (t, f) → timeoutMs < t →
      Protocol.execute reqId timeoutMs incoming = Protocol.ExecResult.timedOut) ∧
    (Protocol.firstMatch reqId incoming = none →
      Protocol.execute reqId timeoutMs incoming = Protocol.ExecResult.timedOut) ∧
    Protocol.defaultTimeoutMs = 5000 ∧
    (∀ id, Protocol.frameActionId fr = some id →
      st.outstanding.contains id = false →
      Protocol.handleFrame st fr = (st, Protocol.Dispatch.droppedWithWarning)) := by
  refine ⟨?_, ?_, ?_, rfl, ?_⟩
  · intro t f hfind ht
    have hbeq := List.find?_some hfind
    simp only [beq_iff_eq] at hbeq
    refine ⟨?_, hbeq⟩
    simp [Protocol.execute, hfind, ht]
  · intro t f hfind ht
    simp [Protocol.execute, hfind, Nat.not_le.mpr ht]
  · intro hnone
    simp [Protocol.execute, hnone]
  · intro id hid hcontains
    have hnotmem : id ∉ st.outstanding := by simpa using hcontains
    simp [Protocol.handleFrame, hid, hcontains, hnotmem]

/-- Claim C6 witness: a correlated response within the default timeout is
returned, and a response matching no outstanding request is dropped with a
warning without touching the client state. -/
theorem claim_C6_witness :
    Protocol.execute "42" Protocol.defaultTimeoutMs
        [(100, { fields := [("ActionID", "42"), ("Response", "Success")] })] =
      Protocol.ExecResult.response
        { fields := [("ActionID", "42"), ("Response", "Success")] } ∧
    Protocol.handleFrame { outstanding := ["7"], connected := true }
        { fields := [("ActionID", "42"), ("Response", "Success")] } =
      ({ outstanding := ["7"], connected := true },
        Protocol.Dispatch.droppedWithWarning) := by
  have h := claim_C6_execute_correlation "42" Protocol.defaultTimeoutMs
    [(100, { fields := [("ActionID", "42"), ("Response", "Success")] })]
    { outstanding := ["7"], connected := true }
    { fields := [("ActionID", "42"), ("Response", "Success")] }
  exact ⟨(h.1 100 { fields := [("ActionID", "42"), ("Response", "Success")] }
      (by decide) (by decide)).1,
    h.2.2.2.2 "42" (by decide) (by decide)⟩

/-- Claim C7: when the reload step fails, `publish` reports `ReloadError`
but performs no rollback — the config directory is exactly what a successful
publish would have written: every fragment is present with its new contents
and files not named by a fragment are untouched. -/
theorem claim_C7_reload_failure_no_rollback (dir : Publisher.ConfigDir)
    (frags : List (String × String))
    (hnd : (frags.map Prod.fst).Nodup) :
    (Publisher.publish dir frags false).2 = Publisher.PublishResult.reloadError ∧
    (Publisher.publish dir frags false).1 = (Publisher.publish dir frags true).1 ∧
    (∀ n c, (n, c) ∈ frags →
      KV.lookup n (Publisher.publish dir frags false).1 = some c) ∧
    (∀ k, k ∉ frags.map Prod.fst →
      KV.lookup k (Publisher.publish dir frags false).1 = KV.lookup k dir) := by
  refine ⟨rfl, rfl, ?_, ?_⟩
  · intro n c hmem
    exact Publisher.lookup_writeAll_of_mem n c frags dir hnd hmem
  · intro k hk
    exact Publisher.lookup_writeAll_of_not_mem k frags dir hk

/-- Claim C7 witness: a failed reload over a concrete directory reports
`ReloadError` while the newly written fragment contents stay in place. -/
theorem claim_C7_witness :
    (Publisher.publish [("pjsip_endpoints.conf", "old"), ("voicemail_boxes.conf", "keep")]
        [("pjsip_endpoints.conf", "new"), ("extensions_inbound.conf", "fresh")]
        false).2 = Publisher.PublishResult.reloadError ∧
    KV.lookup "pjsip_endpoints.conf"
        (Publisher.publish [("pjsip_endpoints.conf", "old"), ("voicemail_boxes.conf", "keep")]
          [("pjsip_endpoints.conf", "new"), ("extensions_inbound.conf", "fresh")]
          false).1 = some "new" ∧
    KV.lookup "voicemail_boxes.conf"
        (Publisher.publish [("pjsip_endpoints.conf", "old"), ("voicemail_boxes.conf", "keep")]
          [("pjsip_endpoints.conf", "new"), ("extensions_inbound.conf", "fresh")]
          false).1 = some "keep" := by
  have h := claim_C7_reload_failure_no_rollback
    [("pjsip_endpoints.conf", "old"), ("voicemail_boxes.conf", "keep")]
    [("pjsip_endpoints.conf", "new"), ("extensions_inbound.conf", "fresh")]
    (by decide)
  refine ⟨h.1, h.2.2.1 "pjsip_endpoints.conf" "new" (by decide), ?_⟩
  rw [h.2.2.2 "voicemail_boxes.conf" (by decide)]
  decide
